import Mathlib

/-!
Verification of the floating-point to fixed-point conversion routine
`FPToFixed` of the dynarmic project (source file
`src/common/fp/op/FPToFixed.cpp`).

The conversion orchestrator itself is translated from the source file.
Its collaborators (the residual classifier, the safe shift and negate
utilities, the bit utilities, the exception signaller and the
normalized-point constant) live in headers outside the provided source
tree; they are modelled from the specification, as marked in their doc
comments.  Machine integers (`u64`) are embedded as natural numbers
taken modulo `2 ^ 64` wherever the source relies on wraparound.
-/

namespace Dynarmic

/-- The modulus of 64-bit unsigned arithmetic. -/
def U64_LIMIT : Nat := 2 ^ 64

namespace Common

/-- Modelled from the spec: `Common::Ones<u64>(n)` is the 64-bit pattern
with the `n` low bits set. -/
def Ones (n : Nat) : Nat := 2 ^ n - 1

/-- Modelled from the spec: `Common::Bit<0>(x)` is the lowest bit of the
64-bit pattern `x`. -/
def Bit0 (x : Nat) : Bool := Nat.testBit x 0

/-- Modelled from the spec: `Common::MostSignificantBit(x)` is bit 63 of
the 64-bit pattern `x`, the sign bit of its twos-complement reading. -/
def MostSignificantBit (x : Nat) : Bool := Nat.testBit x 63

/-- Fuel-driven base-2 logarithm, so that the kernel can evaluate it by
structural recursion; it agrees with `Nat.log2` whenever the fuel bounds
the bit count of the argument (`hsbAux_eq_log2`). -/
def hsbAux : Nat → Nat → Nat
  | 0, _ => 0
  | fuel + 1, n => if n < 2 then 0 else hsbAux fuel (n / 2) + 1

/-- Modelled from the spec: `Common::HighestSetBit(x)` is the position of
the highest set bit of the 64-bit pattern `x` (meaningful for `x ≠ 0`). -/
def HighestSetBit (x : Nat) : Nat := hsbAux 64 x

end Common

namespace Safe

/-- Modelled from the spec: `Safe::Negate<u64>` is twos-complement
negation of a 64-bit pattern, with wraparound defined (no undefined
behavior on the minimum representable value). -/
def Negate (x : Nat) : Nat := (U64_LIMIT - x % U64_LIMIT) % U64_LIMIT

/-- Modelled from the spec: `Safe::ArithmeticShiftLeft` shifts the 64-bit
pattern `x` left by `amount` bits when `amount ≥ 0` and right
(sign-preserving) by `-amount` bits when `amount < 0`; amounts exceeding
the register width saturate to the all-shifted-out result (0 or
sign-fill) rather than invoking undefined shift behavior. -/
def ArithmeticShiftLeft (x : Nat) (amount : Int) : Nat :=
  if 0 ≤ amount then
    x % U64_LIMIT * 2 ^ amount.toNat % U64_LIMIT
  else
    let s := min (-amount).toNat 64
    x % U64_LIMIT / 2 ^ s +
      (if Common.MostSignificantBit x then U64_LIMIT - 2 ^ (64 - s) else 0)

end Safe

/-- The residual-error classification of the bits dropped by a right
shift, an ordered enumeration (`Zero < LessThanHalf < Half <
GreaterThanHalf`, per its declaration order in `mantissa_util.h`). -/
inductive ResidualError
  | Zero
  | LessThanHalf
  | Half
  | GreaterThanHalf
deriving DecidableEq, Repr

/-- The underlying value of the ordered `ResidualError` enumeration,
used to embed the C++ relational comparisons between enumerators. -/
def ResidualError.toNat : ResidualError → Nat
  | .Zero => 0
  | .LessThanHalf => 1
  | .Half => 2
  | .GreaterThanHalf => 3

/-- Modelled from the spec: the residual classifier
`ResidualErrorOnRightShift(mantissa, shift)`.  If `shift ≤ 0` no bits are
discarded and the result is `Zero`; otherwise the `shift` low bits of the
64-bit magnitude are compared against the halfway value `2 ^ (shift - 1)`:
all zero gives `Zero`, exactly the halfway value gives `Half`, and the
remaining cases are classified by numeric comparison. -/
def ResidualErrorOnRightShift (mantissa : Nat) (shift : Int) : ResidualError :=
  if shift ≤ 0 then .Zero
  else
    let s := shift.toNat
    let err := mantissa % 2 ^ s
    let half := 2 ^ (s - 1)
    if err = 0 then .Zero
    else if err < half then .LessThanHalf
    else if err = half then .Half
    else .GreaterThanHalf

/-- The rounding modes of `rounding_mode.h` that this routine dispatches
on.  `ToOdd` is a precondition violation for `FPToFixed`. -/
inductive RoundingMode
  | ToNearest_TieEven
  | TowardsPlusInfinity
  | TowardsMinusInfinity
  | TowardsZero
  | ToNearest_TieAwayFromZero
  | ToOdd
deriving DecidableEq, Repr

/-- The operand classes produced by the external unpack collaborator. -/
inductive FPType
  | SNaN
  | QNaN
  | Infinity
  | Zero
  | Normal
deriving DecidableEq, Repr

/-- The architectural exception kinds this routine can signal. -/
inductive FPExc
  | InvalidOp
  | Inexact
deriving DecidableEq, Repr

/-- The floating-point control configuration.  `FPToFixed` only passes it
through to its collaborators, so no field of it is modelled. -/
structure FPCR where
deriving DecidableEq

/-- The status accumulator, restricted to the two exception flags this
routine can set. -/
structure FPSR where
  invalidOp : Bool
  inexact : Bool
deriving DecidableEq, Repr

/-- Modelled from the spec: `FPProcessException` records the exception
kind into the status accumulator (it may additionally trap depending on
the control configuration; this core is indifferent to trapping). -/
def FPProcessException (exc : FPExc) (_fpcr : FPCR) (fpsr : FPSR) : FPSR :=
  match exc with
  | .InvalidOp => { fpsr with invalidOp := true }
  | .Inexact => { fpsr with inexact := true }

/-- Modelled from the spec: the fixed normalized binary point position of
the unpack convention, common to all precisions (`unpacked.h`).  Every
claim quantifies over the unpacked exponent, so only the existence of
this constant matters, not its value. -/
def normalized_point_position : Nat := 62

/-- Source line 44: `exponent = value.exponent + fbits -
normalized_point_position`, the net left shift that moves the normalized
mantissa to its fixed-point target position. -/
def scaledExponent (exponent : Int) (fbits : Nat) : Int :=
  exponent + (fbits : Int) - (normalized_point_position : Int)

/-- Source line 46: the signed 64-bit magnitude, the mantissa negated
when the sign is set. -/
def magnitudePattern (sign : Bool) (mantissa : Nat) : Nat :=
  if sign then Safe.Negate mantissa else mantissa % U64_LIMIT

/-- Source line 47: the residual error dropped by shifting the magnitude
right by the negated scaled exponent. -/
def residualError (sign : Bool) (mantissa : Nat) (exponent : Int) (fbits : Nat) :
    ResidualError :=
  ResidualErrorOnRightShift (magnitudePattern sign mantissa)
    (-(scaledExponent exponent fbits))

/-- Source line 48: the unrounded integer candidate, the magnitude
arithmetically shifted by the scaled exponent. -/
def candidate (sign : Bool) (mantissa : Nat) (exponent : Int) (fbits : Nat) : Nat :=
  Safe.ArithmeticShiftLeft (magnitudePattern sign mantissa)
    (scaledExponent exponent fbits)

/-- Source lines 50-69: the round-up decision of the rounding-mode
dispatch.  The `ToOdd` arm is the `UNREACHABLE()` branch, embedded as
`none`. -/
def RoundUpDecision (rounding : RoundingMode) (error : ResidualError)
    (int_result : Nat) : Option Bool :=
  match rounding with
  | .ToNearest_TieEven =>
      some (decide (ResidualError.Half.toNat < error.toNat) ||
        (decide (error = .Half) && Common.Bit0 int_result))
  | .TowardsPlusInfinity => some (decide (error ≠ .Zero))
  | .TowardsMinusInfinity => some false
  | .TowardsZero =>
      some (decide (error ≠ .Zero) && Common.MostSignificantBit int_result)
  | .ToNearest_TieAwayFromZero =>
      some (decide (ResidualError.Half.toNat < error.toNat) ||
        (decide (error = .Half) && !Common.MostSignificantBit int_result))
  | .ToOdd => none

/-- Source line 76: `min_exponent_for_overflow = ibits -
HighestSetBit(value.mantissa + (round_up ? 1 : 0)) - (unsigned_ ? 0 : 1)`
(the 64-bit addition wraps). -/
def minExponentForOverflow (ibits : Nat) (mantissa : Nat) (round_up : Bool)
    (unsigned_ : Bool) : Int :=
  (ibits : Int) -
    (Common.HighestSetBit ((mantissa + (if round_up then 1 else 0)) % U64_LIMIT) : Int) -
    (if unsigned_ then 0 else 1)

/-- Source lines 92-95: the final Inexact check and masking of the
candidate to the low `ibits` bits. -/
def FPToFixedFinish (ibits : Nat) (fpcr : FPCR) (error : ResidualError)
    (int_result : Nat) (fpsr : FPSR) : Nat × FPSR :=
  let fpsr := if error ≠ .Zero then FPProcessException .Inexact fpcr fpsr else fpsr
  (int_result &&& Common.Ones ibits, fpsr)

/-- Source lines 75-95: overflow detection and the tail of the routine,
applied to the round-up decision and the already-rounded candidate. -/
def FPToFixedOverflow (ibits : Nat) (sign : Bool) (mantissa : Nat)
    (unsigned_ : Bool) (fpcr : FPCR) (exponent' : Int) (error : ResidualError)
    (fpsr : FPSR) (round_up : Bool) (int_result : Nat) : Nat × FPSR :=
  if minExponentForOverflow ibits mantissa round_up unsigned_ ≤ exponent' then
    if unsigned_ || !sign then
      (Common.Ones (ibits - (if unsigned_ then 0 else 1)),
        FPProcessException .InvalidOp fpcr fpsr)
    else if ¬(exponent' = minExponentForOverflow ibits mantissa round_up unsigned_ ∧
        int_result = Safe.Negate (2 ^ (ibits - 1))) then
      (2 ^ (ibits - 1), FPProcessException .InvalidOp fpcr fpsr)
    else
      FPToFixedFinish ibits fpcr error int_result fpsr
  else
    FPToFixedFinish ibits fpcr error int_result fpsr

/-- Source lines 71-95: increments the candidate by one (with 64-bit
wraparound) when rounding up, then runs the overflow detection and the
tail of the routine. -/
def FPToFixedAfterRound (ibits : Nat) (sign : Bool) (mantissa : Nat)
    (unsigned_ : Bool) (fpcr : FPCR) (exponent' : Int) (error : ResidualError)
    (int_result : Nat) (fpsr : FPSR) (round_up : Bool) : Nat × FPSR :=
  FPToFixedOverflow ibits sign mantissa unsigned_ fpcr exponent' error fpsr round_up
    (if round_up then (int_result + 1) % U64_LIMIT else int_result)

/-- Source lines 29-31: the status accumulator after the NaN check,
holding InvalidOperation when the operand class is a NaN. -/
def nanFpsr (type : FPType) (fpcr : FPCR) (fpsr : FPSR) : FPSR :=
  if type = FPType.SNaN ∨ type = FPType.QNaN then
    FPProcessException .InvalidOp fpcr fpsr
  else fpsr

/-- Source lines 27-96, after the assertions: the body of `FPToFixed`,
taking the already-unpacked operand.  `none` arises only from the
`UNREACHABLE()` arm of the rounding dispatch. -/
def FPToFixedBody (ibits : Nat) (type : FPType) (sign : Bool) (mantissa : Nat)
    (exponent : Int) (fbits : Nat) (unsigned_ : Bool) (fpcr : FPCR)
    (rounding : RoundingMode) (fpsr : FPSR) : Option (Nat × FPSR) :=
  if mantissa = 0 then some (0, nanFpsr type fpcr fpsr)
  else if sign && unsigned_ then
    some (0, FPProcessException .InvalidOp fpcr (nanFpsr type fpcr fpsr))
  else
    (RoundUpDecision rounding (residualError sign mantissa exponent fbits)
        (candidate sign mantissa exponent fbits)).map
      (FPToFixedAfterRound ibits sign mantissa unsigned_ fpcr
        (scaledExponent exponent fbits) (residualError sign mantissa exponent fbits)
        (candidate sign mantissa exponent fbits) (nanFpsr type fpcr fpsr))

/-- Source lines 22-96: the entry point `FPToFixed`, taking the
already-unpacked operand (unpacking is an external collaborator).  The
three `ASSERT`s of lines 23-25 are embedded as `none` (a fatal internal
error, distinct from every architectural return, which is `some`). -/
def FPToFixed (ibits : Nat) (type : FPType) (sign : Bool) (mantissa : Nat)
    (exponent : Int) (fbits : Nat) (unsigned_ : Bool) (fpcr : FPCR)
    (rounding : RoundingMode) (fpsr : FPSR) : Option (Nat × FPSR) :=
  if rounding = RoundingMode.ToOdd ∨ 64 < ibits ∨ ibits < fbits then none
  else FPToFixedBody ibits type sign mantissa exponent fbits unsigned_ fpcr rounding fpsr

/-- The 64-bit pattern returned by a (non-fatal) call. -/
def retVal (o : Option (Nat × FPSR)) : Option Nat := o.map Prod.fst

/-- Whether the status accumulator holds the InvalidOperation flag after
a (non-fatal) call. -/
def raisesInvalidOp (o : Option (Nat × FPSR)) : Bool :=
  match o with
  | some (_, s) => s.invalidOp
  | none => false

/-- Whether the status accumulator holds the Inexact flag after a
(non-fatal) call. -/
def raisesInexact (o : Option (Nat × FPSR)) : Bool :=
  match o with
  | some (_, s) => s.inexact
  | none => false

/-- The round-up decision as a total function, agreeing with
`RoundUpDecision` on every supported rounding mode. -/
def roundUpBool (rounding : RoundingMode) (error : ResidualError)
    (int_result : Nat) : Bool :=
  (RoundUpDecision rounding error int_result).getD false

/-- The round-up decision table exactly as the specification words it,
with the enum-order comparison `error > Half` resolved to
`error = GreaterThanHalf`; written from the spec, for comparison with
`RoundUpDecision`, which is translated from the source. -/
def specRoundUp (rounding : RoundingMode) (error : ResidualError) (c : Nat) : Bool :=
  match rounding with
  | .ToNearest_TieEven =>
      decide (error = .GreaterThanHalf) ||
        (decide (error = .Half) && Nat.testBit c 0)
  | .TowardsPlusInfinity => decide (error ≠ .Zero)
  | .TowardsMinusInfinity => false
  | .TowardsZero => decide (error ≠ .Zero) && Nat.testBit c 63
  | .ToNearest_TieAwayFromZero =>
      decide (error = .GreaterThanHalf) ||
        (decide (error = .Half) && !Nat.testBit c 63)
  | .ToOdd => false

/-- The candidate after the rounding step as the specification words it:
incremented by exactly one, with wraparound defined, exactly when the
decision table says to round up. -/
def specRoundedCandidate (rounding : RoundingMode) (error : ResidualError)
    (c : Nat) : Nat :=
  if specRoundUp rounding error c then (c + 1) % U64_LIMIT else c

/-- The round-up decision of a call, as a function of the unpacked
operand, the fractional-bit count and the rounding mode. -/
def callRoundUp (rounding : RoundingMode) (sign : Bool) (mantissa : Nat)
    (exponent : Int) (fbits : Nat) : Bool :=
  roundUpBool rounding (residualError sign mantissa exponent fbits)
    (candidate sign mantissa exponent fbits)

/-- The candidate after the rounding step of a call: the unrounded
candidate, incremented by one with 64-bit wraparound when the call
rounds up. -/
def callRounded (rounding : RoundingMode) (sign : Bool) (mantissa : Nat)
    (exponent : Int) (fbits : Nat) : Nat :=
  if callRoundUp rounding sign mantissa exponent fbits then
    (candidate sign mantissa exponent fbits + 1) % U64_LIMIT
  else candidate sign mantissa exponent fbits

/-- The fuel-driven logarithm agrees with `Nat.log2` whenever the fuel
bounds the bit count of the argument; in particular `HighestSetBit` is
the highest-set-bit position on every 64-bit pattern. -/
theorem hsbAux_eq_log2 (fuel n : Nat) (h : n < 2 ^ fuel) :
    Common.hsbAux fuel n = Nat.log2 n := by
  induction fuel generalizing n with
  | zero =>
    interval_cases n
    rw [Nat.log2]
    simp [Common.hsbAux]
  | succ fuel ih =>
    rw [Common.hsbAux, Nat.log2]
    by_cases h2 : n < 2
    · rw [if_pos h2, if_neg (by omega)]
    · rw [if_neg h2, if_pos (by omega), ih]
      have hp : 0 < 2 ^ fuel := Nat.pow_pos (by norm_num)
      omega

/-- On every supported rounding mode the dispatch produces a decision. -/
theorem RoundUpDecision_eq_some (rounding : RoundingMode) (error : ResidualError)
    (int_result : Nat) (h : rounding ≠ RoundingMode.ToOdd) :
    RoundUpDecision rounding error int_result =
      some (roundUpBool rounding error int_result) := by
  cases rounding <;> first | rfl | exact absurd rfl h

/-- A residual of `Zero` never rounds up, in any mode. -/
theorem roundUpBool_zero (rounding : RoundingMode) (int_result : Nat) :
    roundUpBool rounding ResidualError.Zero int_result = false := by
  cases rounding <;> simp [roundUpBool, RoundUpDecision, ResidualError.toNat]

/-- C10: an operand that unpacks to mantissa 0 with the sign set (such as
negative zero), converted with `unsigned_ = true`, returns 0 with no
exception signaled for non-NaN classes: the mantissa-zero short circuit
is checked before the negative-operand-to-unsigned check. -/
theorem claim_C10_negative_zero_unsigned (ibits : Nat) (type : FPType)
    (exponent : Int) (fbits : Nat) (fpcr : FPCR) (rounding : RoundingMode)
    (fpsr : FPSR) (hty : type ≠ FPType.SNaN ∧ type ≠ FPType.QNaN)
    (hr : rounding ≠ RoundingMode.ToOdd) (hi : ibits ≤ 64) (hf : fbits ≤ ibits) :
    FPToFixed ibits type true 0 exponent fbits true fpcr rounding fpsr =
      some (0, fpsr) := by
  have h1 : ¬(rounding = RoundingMode.ToOdd ∨ 64 < ibits ∨ ibits < fbits) := by
    push_neg
    exact ⟨hr, by omega, by omega⟩
  simp only [FPToFixed, if_neg h1, FPToFixedBody]
  simp [nanFpsr, hty.1, hty.2]

/-- Closed instance of the C10 theorem at a concrete negative-zero call. -/
theorem claim_C10_witness :
    FPToFixed 8 FPType.Zero true 0 0 0 true ⟨⟩ RoundingMode.ToNearest_TieEven
      ⟨false, false⟩ = some (0, ⟨false, false⟩) :=
  claim_C10_negative_zero_unsigned 8 FPType.Zero 0 0 ⟨⟩
    RoundingMode.ToNearest_TieEven ⟨false, false⟩ (by decide) (by decide)
    (by decide) (by decide)

/-- C8: a NaN operand (signaling or quiet) has `InvalidOperation`
signaled, and, the unpack collaborator encoding these classes with
mantissa 0, returns 0 through the zero-mantissa short circuit; the
signaling is not suppressed by that return. -/
theorem claim_C8_nan_invalid_op (ibits : Nat) (type : FPType) (sign : Bool)
    (exponent : Int) (fbits : Nat) (unsigned_ : Bool) (fpcr : FPCR)
    (rounding : RoundingMode) (fpsr : FPSR)
    (hty : type = FPType.SNaN ∨ type = FPType.QNaN)
    (hr : rounding ≠ RoundingMode.ToOdd) (hi : ibits ≤ 64) (hf : fbits ≤ ibits) :
    retVal (FPToFixed ibits type sign 0 exponent fbits unsigned_ fpcr rounding fpsr) =
        some 0 ∧
      raisesInvalidOp
        (FPToFixed ibits type sign 0 exponent fbits unsigned_ fpcr rounding fpsr) =
        true := by
  have h1 : ¬(rounding = RoundingMode.ToOdd ∨ 64 < ibits ∨ ibits < fbits) := by
    push_neg
    exact ⟨hr, by omega, by omega⟩
  simp only [FPToFixed, if_neg h1, FPToFixedBody, nanFpsr, if_pos hty]
  simp [retVal, raisesInvalidOp, FPProcessException]

/-- Closed instance of the C8 theorem at a concrete quiet-NaN call. -/
theorem claim_C8_witness :
    retVal (FPToFixed 32 FPType.QNaN false 0 0 0 false ⟨⟩
        RoundingMode.TowardsZero ⟨false, false⟩) = some 0 ∧
      raisesInvalidOp (FPToFixed 32 FPType.QNaN false 0 0 0 false ⟨⟩
        RoundingMode.TowardsZero ⟨false, false⟩) = true :=
  claim_C8_nan_invalid_op 32 FPType.QNaN false 0 0 false ⟨⟩
    RoundingMode.TowardsZero ⟨false, false⟩ (by decide) (by decide) (by decide)
    (by decide)

/-- C4: a negative operand (sign set, nonzero magnitude per the
mantissa-zero convention, which is claim C10) converted with
`unsigned_ = true` signals `InvalidOperation` and returns 0, for every
supported rounding mode and every `fbits`. -/
theorem claim_C4_negative_to_unsigned (ibits : Nat) (type : FPType)
    (mantissa : Nat) (exponent : Int) (fbits : Nat) (fpcr : FPCR)
    (rounding : RoundingMode) (fpsr : FPSR) (hm : mantissa ≠ 0)
    (hr : rounding ≠ RoundingMode.ToOdd) (hi : ibits ≤ 64) (hf : fbits ≤ ibits) :
    retVal (FPToFixed ibits type true mantissa exponent fbits true fpcr rounding fpsr) =
        some 0 ∧
      raisesInvalidOp
        (FPToFixed ibits type true mantissa exponent fbits true fpcr rounding fpsr) =
        true := by
  have h1 : ¬(rounding = RoundingMode.ToOdd ∨ 64 < ibits ∨ ibits < fbits) := by
    push_neg
    exact ⟨hr, by omega, by omega⟩
  simp only [FPToFixed, if_neg h1, FPToFixedBody, if_neg hm]
  simp [retVal, raisesInvalidOp, FPProcessException]

/-- The status accumulator after the NaN check keeps the Inexact flag of
the incoming accumulator unchanged. -/
theorem nanFpsr_inexact (type : FPType) (fpcr : FPCR) (fpsr : FPSR) :
    (nanFpsr type fpcr fpsr).inexact = fpsr.inexact := by
  simp only [nanFpsr, FPProcessException]
  split <;> rfl

/-- After the NaN check on a NaN class the InvalidOperation flag holds. -/
theorem nanFpsr_invalidOp (type : FPType) (fpcr : FPCR) (fpsr : FPSR)
    (h : type = FPType.SNaN ∨ type = FPType.QNaN) :
    (nanFpsr type fpcr fpsr).invalidOp = true := by
  simp only [nanFpsr, if_pos h, FPProcessException]

/-- A call that passes the zero and negative-to-unsigned checks reduces
to the rounding step followed by the tail of the routine. -/
theorem FPToFixedBody_reaches_round (ibits : Nat) (type : FPType) (sign : Bool)
    (mantissa : Nat) (exponent : Int) (fbits : Nat) (unsigned_ : Bool)
    (fpcr : FPCR) (rounding : RoundingMode) (fpsr : FPSR) (hm : mantissa ≠ 0)
    (hsu : (sign && unsigned_) = false) (hr : rounding ≠ RoundingMode.ToOdd) :
    FPToFixedBody ibits type sign mantissa exponent fbits unsigned_ fpcr rounding
        fpsr =
      some (FPToFixedAfterRound ibits sign mantissa unsigned_ fpcr
        (scaledExponent exponent fbits) (residualError sign mantissa exponent fbits)
        (candidate sign mantissa exponent fbits) (nanFpsr type fpcr fpsr)
        (roundUpBool rounding (residualError sign mantissa exponent fbits)
          (candidate sign mantissa exponent fbits))) := by
  simp only [FPToFixedBody, if_neg hm, hsu, Bool.false_eq_true, if_false,
    RoundUpDecision_eq_some _ _ _ hr, Option.map_some']

/-- Closed instance of the C4 theorem at a concrete negative call. -/
theorem claim_C4_witness :
    retVal (FPToFixed 16 FPType.Normal true 5 40 3 true ⟨⟩
        RoundingMode.TowardsMinusInfinity ⟨false, false⟩) = some 0 ∧
      raisesInvalidOp (FPToFixed 16 FPType.Normal true 5 40 3 true ⟨⟩
        RoundingMode.TowardsMinusInfinity ⟨false, false⟩) = true :=
  claim_C4_negative_to_unsigned 16 FPType.Normal 5 40 3 ⟨⟩
    RoundingMode.TowardsMinusInfinity ⟨false, false⟩ (by decide) (by decide)
    (by decide) (by decide)

/-- C9: a call violating a precondition (`ToOdd` rounding, `ibits > 64`
or `fbits > ibits`) trips an assertion, embedded as the fatal result
`none`, never an architectural return; and on every supported rounding
mode the body never reaches the `UNREACHABLE()` arm of the dispatch,
that is, it always produces an architectural return. -/
theorem claim_C9_preconditions :
    (∀ (ibits : Nat) (type : FPType) (sign : Bool) (mantissa : Nat) (exponent : Int)
        (fbits : Nat) (unsigned_ : Bool) (fpcr : FPCR) (rounding : RoundingMode)
        (fpsr : FPSR),
      rounding = RoundingMode.ToOdd ∨ 64 < ibits ∨ ibits < fbits →
      FPToFixed ibits type sign mantissa exponent fbits unsigned_ fpcr rounding fpsr =
        none) ∧
    (∀ (ibits : Nat) (type : FPType) (sign : Bool) (mantissa : Nat) (exponent : Int)
        (fbits : Nat) (unsigned_ : Bool) (fpcr : FPCR) (rounding : RoundingMode)
        (fpsr : FPSR),
      rounding ≠ RoundingMode.ToOdd →
      (FPToFixedBody ibits type sign mantissa exponent fbits unsigned_ fpcr rounding
        fpsr).isSome = true) := by
  constructor
  · intro ibits type sign mantissa exponent fbits unsigned_ fpcr rounding fpsr h
    simp only [FPToFixed, if_pos h]
  · intro ibits type sign mantissa exponent fbits unsigned_ fpcr rounding fpsr hr
    simp only [FPToFixedBody]
    split
    · rfl
    · split
      · rfl
      · rw [RoundUpDecision_eq_some _ _ _ hr]
        rfl

/-- Closed instance of the C9 theorem: a `ToOdd` call is fatal, and a
concrete supported call produces an architectural return. -/
theorem claim_C9_witness :
    FPToFixed 32 FPType.Normal false 5 61 0 false ⟨⟩ RoundingMode.ToOdd
        ⟨false, false⟩ = none ∧
      (FPToFixedBody 32 FPType.Normal false 5 61 0 false ⟨⟩
        RoundingMode.ToNearest_TieEven ⟨false, false⟩).isSome = true :=
  ⟨claim_C9_preconditions.1 32 FPType.Normal false 5 61 0 false ⟨⟩
      RoundingMode.ToOdd ⟨false, false⟩ (Or.inl rfl),
    claim_C9_preconditions.2 32 FPType.Normal false 5 61 0 false ⟨⟩
      RoundingMode.ToNearest_TieEven ⟨false, false⟩ (by decide)⟩

/-- A call that passes the assertions, the zero check and the
negative-to-unsigned check reduces to the overflow detection and the
tail of the routine, run on the rounded candidate. -/
theorem FPToFixed_reaches_overflow (ibits : Nat) (type : FPType) (sign : Bool)
    (mantissa : Nat) (exponent : Int) (fbits : Nat) (unsigned_ : Bool)
    (fpcr : FPCR) (rounding : RoundingMode) (fpsr : FPSR) (hm : mantissa ≠ 0)
    (hsu : (sign && unsigned_) = false) (hr : rounding ≠ RoundingMode.ToOdd)
    (hi : ibits ≤ 64) (hf : fbits ≤ ibits) :
    FPToFixed ibits type sign mantissa exponent fbits unsigned_ fpcr rounding
        fpsr =
      some (FPToFixedOverflow ibits sign mantissa unsigned_ fpcr
        (scaledExponent exponent fbits) (residualError sign mantissa exponent fbits)
        (nanFpsr type fpcr fpsr) (callRoundUp rounding sign mantissa exponent fbits)
        (callRounded rounding sign mantissa exponent fbits)) := by
  have h1 : ¬(rounding = RoundingMode.ToOdd ∨ 64 < ibits ∨ ibits < fbits) := by
    push_neg
    exact ⟨hr, by omega, by omega⟩
  rw [FPToFixed, if_neg h1,
    FPToFixedBody_reaches_round _ _ _ _ _ _ _ _ _ _ hm hsu hr]
  rfl

/-- The first component of the final Inexact check and masking. -/
theorem FPToFixedFinish_fst (ibits : Nat) (fpcr : FPCR) (error : ResidualError)
    (int_result : Nat) (fpsr : FPSR) :
    (FPToFixedFinish ibits fpcr error int_result fpsr).1 =
      int_result &&& Common.Ones ibits := rfl

/-- The status accumulator of the final Inexact check and masking. -/
theorem FPToFixedFinish_snd (ibits : Nat) (fpcr : FPCR) (error : ResidualError)
    (int_result : Nat) (fpsr : FPSR) :
    (FPToFixedFinish ibits fpcr error int_result fpsr).2 =
      if error ≠ ResidualError.Zero then { fpsr with inexact := true }
      else fpsr := rfl

/-- The pattern returned on a non-fatal call, through its pair. -/
theorem retVal_some (p : Nat × FPSR) : retVal (some p) = some p.1 := rfl

/-- The InvalidOperation flag of a non-fatal call, through its pair. -/
theorem raisesInvalidOp_some (p : Nat × FPSR) :
    raisesInvalidOp (some p) = p.2.invalidOp := by
  rcases p with ⟨a, s⟩
  rfl

/-- The Inexact flag of a non-fatal call, through its pair. -/
theorem raisesInexact_some (p : Nat × FPSR) :
    raisesInexact (some p) = p.2.inexact := by
  rcases p with ⟨a, s⟩
  rfl

/-- The round-up decision translated from the source coincides with the
decision table worded by the specification, on every supported mode. -/
theorem roundUpBool_eq_specRoundUp (rounding : RoundingMode)
    (error : ResidualError) (c : Nat) (h : rounding ≠ RoundingMode.ToOdd) :
    roundUpBool rounding error c = specRoundUp rounding error c := by
  cases rounding <;> cases error <;>
    simp [roundUpBool, RoundUpDecision, specRoundUp, ResidualError.toNat,
      Common.Bit0, Common.MostSignificantBit]

/-- C2: every call that reaches the rounding step resolves the round-up
decision exactly by the claimed table (ToNearestTiesToEven by
greater-than-half or tie with odd low bit; TowardsPositiveInfinity on any
nonzero error; TowardsNegativeInfinity never; TowardsZero on nonzero
error with the sign bit 63 set; ToNearestTiesAwayFromZero by
greater-than-half or tie with sign bit clear), and a round-up increments
the candidate by exactly one with wraparound defined, after which the
tail of the routine runs on that decision and candidate. -/
theorem claim_C2_rounding_table (ibits : Nat) (type : FPType) (sign : Bool)
    (mantissa : Nat) (exponent : Int) (fbits : Nat) (unsigned_ : Bool)
    (fpcr : FPCR) (rounding : RoundingMode) (fpsr : FPSR) (hm : mantissa ≠ 0)
    (hsu : (sign && unsigned_) = false) (hr : rounding ≠ RoundingMode.ToOdd)
    (hi : ibits ≤ 64) (hf : fbits ≤ ibits) :
    FPToFixed ibits type sign mantissa exponent fbits unsigned_ fpcr rounding
        fpsr =
      some (FPToFixedOverflow ibits sign mantissa unsigned_ fpcr
        (scaledExponent exponent fbits) (residualError sign mantissa exponent fbits)
        (nanFpsr type fpcr fpsr)
        (specRoundUp rounding (residualError sign mantissa exponent fbits)
          (candidate sign mantissa exponent fbits))
        (specRoundedCandidate rounding (residualError sign mantissa exponent fbits)
          (candidate sign mantissa exponent fbits))) := by
  have h1 : ¬(rounding = RoundingMode.ToOdd ∨ 64 < ibits ∨ ibits < fbits) := by
    push_neg
    exact ⟨hr, by omega, by omega⟩
  rw [FPToFixed, if_neg h1,
    FPToFixedBody_reaches_round _ _ _ _ _ _ _ _ _ _ hm hsu hr]
  simp only [FPToFixedAfterRound, specRoundedCandidate,
    roundUpBool_eq_specRoundUp _ _ _ hr]

/-- Closed instance of the C2 theorem at a concrete call (the operand
5 / 2 at width 32, ties-to-even). -/
theorem claim_C2_witness :
    FPToFixed 32 FPType.Normal false 5 61 0 false ⟨⟩
        RoundingMode.ToNearest_TieEven ⟨false, false⟩ =
      some (FPToFixedOverflow 32 false 5 false ⟨⟩ (scaledExponent 61 0)
        (residualError false 5 61 0) (nanFpsr FPType.Normal ⟨⟩ ⟨false, false⟩)
        (specRoundUp RoundingMode.ToNearest_TieEven (residualError false 5 61 0)
          (candidate false 5 61 0))
        (specRoundedCandidate RoundingMode.ToNearest_TieEven
          (residualError false 5 61 0) (candidate false 5 61 0))) :=
  claim_C2_rounding_table 32 FPType.Normal false 5 61 0 false ⟨⟩
    RoundingMode.ToNearest_TieEven ⟨false, false⟩ (by decide) (by decide)
    (by decide) (by decide) (by decide)

/-- C1: when the scaled exponent reaches the overflow threshold
`ibits - h - (unsigned_ ? 0 : 1)` — `h` the position of the highest set
bit of the original, pre-rounding mantissa incremented by one when the
rounding step rounded up — and the target is unsigned or the operand
non-negative, the call signals InvalidOperation and returns the maximum
representable value: all ones over `ibits` bits when unsigned, all ones
over `ibits - 1` bits with the sign bit clear when signed.  (The
hypotheses `hm` and `hsu` restrict to calls that reach the rounding and
overflow-detection steps the claim speaks about.) -/
theorem claim_C1_positive_saturation (ibits : Nat) (type : FPType) (sign : Bool)
    (mantissa : Nat) (exponent : Int) (fbits : Nat) (unsigned_ : Bool)
    (fpcr : FPCR) (rounding : RoundingMode) (fpsr : FPSR) (hm : mantissa ≠ 0)
    (hsu : (sign && unsigned_) = false) (hr : rounding ≠ RoundingMode.ToOdd)
    (hi1 : 1 ≤ ibits) (hi : ibits ≤ 64) (hf : fbits ≤ ibits)
    (hpos : unsigned_ = true ∨ sign = false)
    (hovf : minExponentForOverflow ibits mantissa
        (roundUpBool rounding (residualError sign mantissa exponent fbits)
          (candidate sign mantissa exponent fbits)) unsigned_ ≤
      scaledExponent exponent fbits) :
    retVal (FPToFixed ibits type sign mantissa exponent fbits unsigned_ fpcr
        rounding fpsr) =
      some (Common.Ones (ibits - (if unsigned_ then 0 else 1))) ∧
    raisesInvalidOp (FPToFixed ibits type sign mantissa exponent fbits unsigned_
        fpcr rounding fpsr) = true := by
  have h1 : ¬(rounding = RoundingMode.ToOdd ∨ 64 < ibits ∨ ibits < fbits) := by
    push_neg
    exact ⟨hr, by omega, by omega⟩
  rw [FPToFixed, if_neg h1,
    FPToFixedBody_reaches_round _ _ _ _ _ _ _ _ _ _ hm hsu hr]
  simp only [FPToFixedAfterRound, FPToFixedOverflow, if_pos hovf]
  simp [hpos, retVal, raisesInvalidOp, FPProcessException]

/-- Closed instance of the C1 theorem: the operand 256 converted to an
unsigned 8-bit integer saturates to 255 with InvalidOperation. -/
theorem claim_C1_witness :
    retVal (FPToFixed 8 FPType.Normal false 1 70 0 true ⟨⟩
        RoundingMode.ToNearest_TieEven ⟨false, false⟩) =
      some (Common.Ones (8 - (if true then 0 else 1))) ∧
    raisesInvalidOp (FPToFixed 8 FPType.Normal false 1 70 0 true ⟨⟩
        RoundingMode.ToNearest_TieEven ⟨false, false⟩) = true :=
  claim_C1_positive_saturation 8 FPType.Normal false 1 70 0 true ⟨⟩
    RoundingMode.ToNearest_TieEven ⟨false, false⟩ (by decide) (by decide)
    (by decide) (by decide) (by decide) (by decide) (by decide) (by decide)

/-- With a residual of `Zero` the overflow detection and the tail of the
routine leave the Inexact flag of the accumulator unchanged. -/
theorem FPToFixedOverflow_snd_inexact (ibits : Nat) (sign : Bool)
    (mantissa : Nat) (unsigned_ : Bool) (fpcr : FPCR) (e : Int)
    (error : ResidualError) (fpsr : FPSR) (ru : Bool) (ir : Nat)
    (h : error = ResidualError.Zero) :
    (FPToFixedOverflow ibits sign mantissa unsigned_ fpcr e error fpsr ru
        ir).2.inexact = fpsr.inexact := by
  subst h
  simp only [FPToFixedOverflow]
  split_ifs <;> simp [FPToFixedFinish, FPProcessException]

/-- C3: on a signed, negative operand whose scaled exponent reaches the
overflow threshold, the exact boundary case — rounded candidate equal to
the 64-bit pattern of the minimum representable signed value for `ibits`
and scaled exponent exactly at the threshold — is not an overflow: the
call falls through to the final Inexact check and masking with no
InvalidOperation; in every other such case the call signals
InvalidOperation and returns the minimum representable value, bit
`ibits - 1` set and the remaining bits zero. -/
theorem claim_C3_negative_overflow_boundary (ibits : Nat) (type : FPType)
    (mantissa : Nat) (exponent : Int) (fbits : Nat) (fpcr : FPCR)
    (rounding : RoundingMode) (fpsr : FPSR) (hm : mantissa ≠ 0)
    (hr : rounding ≠ RoundingMode.ToOdd) (hi : ibits ≤ 64) (hf : fbits ≤ ibits)
    (hovf : minExponentForOverflow ibits mantissa
        (callRoundUp rounding true mantissa exponent fbits) false ≤
      scaledExponent exponent fbits) :
    (scaledExponent exponent fbits =
        minExponentForOverflow ibits mantissa
          (callRoundUp rounding true mantissa exponent fbits) false ∧
      callRounded rounding true mantissa exponent fbits =
        Safe.Negate (2 ^ (ibits - 1)) →
      FPToFixed ibits type true mantissa exponent fbits false fpcr rounding fpsr =
        some (FPToFixedFinish ibits fpcr (residualError true mantissa exponent fbits)
          (callRounded rounding true mantissa exponent fbits)
          (nanFpsr type fpcr fpsr))) ∧
    (¬(scaledExponent exponent fbits =
        minExponentForOverflow ibits mantissa
          (callRoundUp rounding true mantissa exponent fbits) false ∧
      callRounded rounding true mantissa exponent fbits =
        Safe.Negate (2 ^ (ibits - 1))) →
      retVal (FPToFixed ibits type true mantissa exponent fbits false fpcr rounding
          fpsr) = some (2 ^ (ibits - 1)) ∧
      raisesInvalidOp (FPToFixed ibits type true mantissa exponent fbits false fpcr
          rounding fpsr) = true) := by
  rw [FPToFixed_reaches_overflow _ _ _ _ _ _ _ _ _ _ hm (by simp) hr hi hf]
  simp only [FPToFixedOverflow, if_pos hovf]
  constructor
  · intro hb
    rw [if_neg (by simp), if_neg (by simpa using hb)]
  · intro hb
    rw [if_neg (by simp), if_pos (by simpa using hb)]
    simp [retVal_some, raisesInvalidOp_some, FPProcessException]

/-- Closed instance of the C3 theorem: at width 8, the operand -128 is
the exact boundary (result pattern 128, no InvalidOperation), while the
operand -129 saturates to the minimum with InvalidOperation. -/
theorem claim_C3_witness :
    (FPToFixed 8 FPType.Normal true (2 ^ 62) 7 0 false ⟨⟩
        RoundingMode.ToNearest_TieEven ⟨false, false⟩ =
      some (FPToFixedFinish 8 ⟨⟩ (residualError true (2 ^ 62) 7 0)
        (callRounded RoundingMode.ToNearest_TieEven true (2 ^ 62) 7 0)
        (nanFpsr FPType.Normal ⟨⟩ ⟨false, false⟩))) ∧
    (retVal (FPToFixed 8 FPType.Normal true 129 62 0 false ⟨⟩
        RoundingMode.ToNearest_TieEven ⟨false, false⟩) = some (2 ^ 7) ∧
      raisesInvalidOp (FPToFixed 8 FPType.Normal true 129 62 0 false ⟨⟩
        RoundingMode.ToNearest_TieEven ⟨false, false⟩) = true) :=
  ⟨(claim_C3_negative_overflow_boundary 8 FPType.Normal (2 ^ 62) 7 0 ⟨⟩
      RoundingMode.ToNearest_TieEven ⟨false, false⟩ (by decide) (by decide)
      (by decide) (by decide) (by decide)).1 (by decide),
    (claim_C3_negative_overflow_boundary 8 FPType.Normal 129 62 0 ⟨⟩
      RoundingMode.ToNearest_TieEven ⟨false, false⟩ (by decide) (by decide)
      (by decide) (by decide) (by decide)).2 (by decide)⟩

/-- C5: a call whose residual error — classified on the pre-shift
magnitude with shift amount the negated scaled exponent — is `Zero`
signals no Inexact, and its returned result (indeed its whole outcome,
result and accumulator) is the same under any two supported rounding
modes, all other inputs held equal. -/
theorem claim_C5_exact_round_trip (ibits : Nat) (type : FPType) (sign : Bool)
    (mantissa : Nat) (exponent : Int) (fbits : Nat) (unsigned_ : Bool)
    (fpcr : FPCR) (rounding1 rounding2 : RoundingMode) (fpsr : FPSR)
    (herr : residualError sign mantissa exponent fbits = ResidualError.Zero)
    (h1 : rounding1 ≠ RoundingMode.ToOdd) (h2 : rounding2 ≠ RoundingMode.ToOdd)
    (hx : fpsr.inexact = false) :
    FPToFixed ibits type sign mantissa exponent fbits unsigned_ fpcr rounding1
        fpsr =
      FPToFixed ibits type sign mantissa exponent fbits unsigned_ fpcr rounding2
        fpsr ∧
    raisesInexact (FPToFixed ibits type sign mantissa exponent fbits unsigned_
        fpcr rounding1 fpsr) = false := by
  have hzero : ∀ r : RoundingMode,
      callRoundUp r sign mantissa exponent fbits = false := by
    intro r
    rw [callRoundUp, herr, roundUpBool_zero]
  by_cases hc : 64 < ibits ∨ ibits < fbits
  · rw [FPToFixed, if_pos (Or.inr hc), FPToFixed, if_pos (Or.inr hc)]
    exact ⟨rfl, rfl⟩
  · by_cases hm : mantissa = 0
    · have hb : ∀ r : RoundingMode, r ≠ RoundingMode.ToOdd →
          FPToFixed ibits type sign mantissa exponent fbits unsigned_ fpcr r fpsr =
            some (0, nanFpsr type fpcr fpsr) := by
        intro r hrr
        have h1' : ¬(r = RoundingMode.ToOdd ∨ 64 < ibits ∨ ibits < fbits) := by
          push_neg at hc ⊢
          exact ⟨hrr, hc.1, hc.2⟩
        rw [FPToFixed, if_neg h1', FPToFixedBody, if_pos hm]
      rw [hb rounding1 h1, hb rounding2 h2]
      refine ⟨rfl, ?_⟩
      rw [raisesInexact_some]
      simpa [nanFpsr_inexact] using hx
    · by_cases hsu : (sign && unsigned_) = true
      · have hb : ∀ r : RoundingMode, r ≠ RoundingMode.ToOdd →
            FPToFixed ibits type sign mantissa exponent fbits unsigned_ fpcr r
                fpsr =
              some (0, FPProcessException .InvalidOp fpcr (nanFpsr type fpcr fpsr)) := by
          intro r hrr
          have h1' : ¬(r = RoundingMode.ToOdd ∨ 64 < ibits ∨ ibits < fbits) := by
            push_neg at hc ⊢
            exact ⟨hrr, hc.1, hc.2⟩
          rw [FPToFixed, if_neg h1', FPToFixedBody, if_neg hm, if_pos hsu]
        rw [hb rounding1 h1, hb rounding2 h2]
        refine ⟨rfl, ?_⟩
        rw [raisesInexact_some]
        simp [FPProcessException, nanFpsr_inexact, hx]
      · push_neg at hc
        rw [FPToFixed_reaches_overflow _ _ _ _ _ _ _ _ _ _ hm
            (by simpa using hsu) h1 hc.1 hc.2,
          FPToFixed_reaches_overflow _ _ _ _ _ _ _ _ _ _ hm
            (by simpa using hsu) h2 hc.1 hc.2]
        have hcand : ∀ r : RoundingMode,
            callRounded r sign mantissa exponent fbits =
              candidate sign mantissa exponent fbits := by
          intro r
          rw [callRounded, hzero, if_neg (by simp)]
        rw [hcand rounding1, hcand rounding2, hzero rounding1, hzero rounding2]
        refine ⟨rfl, ?_⟩
        rw [raisesInexact_some,
          FPToFixedOverflow_snd_inexact _ _ _ _ _ _ _ _ _ _ herr]
        simpa [nanFpsr_inexact] using hx

/-- Closed instance of the C5 theorem: the operand 1 at width 8 converts
identically under ties-to-even and towards-zero, with no Inexact. -/
theorem claim_C5_witness :
    FPToFixed 8 FPType.Normal false 1 62 0 false ⟨⟩
        RoundingMode.ToNearest_TieEven ⟨false, false⟩ =
      FPToFixed 8 FPType.Normal false 1 62 0 false ⟨⟩ RoundingMode.TowardsZero
        ⟨false, false⟩ ∧
    raisesInexact (FPToFixed 8 FPType.Normal false 1 62 0 false ⟨⟩
      RoundingMode.ToNearest_TieEven ⟨false, false⟩) = false :=
  claim_C5_exact_round_trip 8 FPType.Normal false 1 62 0 false ⟨⟩
    RoundingMode.ToNearest_TieEven RoundingMode.TowardsZero ⟨false, false⟩
    (by decide) (by decide) (by decide) (by decide)

/-- C6: a call that returns neither through the zero short circuit, nor
through the negative-to-unsigned return, nor through an overflow
saturation return, signals Inexact exactly when the residual error of
the classification step is not `Zero`; and this Inexact is recorded in
addition to an InvalidOperation already signaled in the same call for a
NaN class, both flags set simultaneously. -/
theorem claim_C6_inexact_iff (ibits : Nat) (type : FPType) (sign : Bool)
    (mantissa : Nat) (exponent : Int) (fbits : Nat) (unsigned_ : Bool)
    (fpcr : FPCR) (rounding : RoundingMode) (fpsr : FPSR) (hm : mantissa ≠ 0)
    (hsu : (sign && unsigned_) = false) (hr : rounding ≠ RoundingMode.ToOdd)
    (hi : ibits ≤ 64) (hf : fbits ≤ ibits) (hx : fpsr.inexact = false)
    (hno : scaledExponent exponent fbits <
        minExponentForOverflow ibits mantissa
          (callRoundUp rounding sign mantissa exponent fbits) unsigned_ ∨
      (sign = true ∧ unsigned_ = false ∧
        scaledExponent exponent fbits =
          minExponentForOverflow ibits mantissa
            (callRoundUp rounding sign mantissa exponent fbits) unsigned_ ∧
        callRounded rounding sign mantissa exponent fbits =
          Safe.Negate (2 ^ (ibits - 1)))) :
    raisesInexact (FPToFixed ibits type sign mantissa exponent fbits unsigned_
        fpcr rounding fpsr) =
      decide (residualError sign mantissa exponent fbits ≠ ResidualError.Zero) ∧
    (type = FPType.SNaN ∨ type = FPType.QNaN →
      raisesInvalidOp (FPToFixed ibits type sign mantissa exponent fbits
        unsigned_ fpcr rounding fpsr) = true) := by
  rw [FPToFixed_reaches_overflow _ _ _ _ _ _ _ _ _ _ hm hsu hr hi hf]
  have hfin : FPToFixedOverflow ibits sign mantissa unsigned_ fpcr
      (scaledExponent exponent fbits) (residualError sign mantissa exponent fbits)
      (nanFpsr type fpcr fpsr) (callRoundUp rounding sign mantissa exponent fbits)
      (callRounded rounding sign mantissa exponent fbits) =
      FPToFixedFinish ibits fpcr (residualError sign mantissa exponent fbits)
        (callRounded rounding sign mantissa exponent fbits)
        (nanFpsr type fpcr fpsr) := by
    rcases hno with h | ⟨hs, hu, he, hc⟩
    · rw [FPToFixedOverflow, if_neg (by omega)]
    · subst hs
      subst hu
      rw [FPToFixedOverflow, if_pos (le_of_eq he.symm), if_neg (by simp),
        if_neg (by simp [he, hc])]
  rw [hfin]
  constructor
  · rw [raisesInexact_some, FPToFixedFinish_snd]
    by_cases hz : residualError sign mantissa exponent fbits = ResidualError.Zero
    · simp [hz, nanFpsr_inexact, hx]
    · simp [hz, nanFpsr_inexact, hx]
  · intro hnan
    rw [raisesInvalidOp_some, FPToFixedFinish_snd]
    split_ifs <;> simp [nanFpsr_invalidOp _ _ _ hnan]

/-- Closed instance of the C6 theorem: the operand 5 / 2 carried by a
quiet NaN class converts with Inexact and InvalidOperation both set. -/
theorem claim_C6_witness :
    raisesInexact (FPToFixed 32 FPType.QNaN false 5 61 0 false ⟨⟩
        RoundingMode.ToNearest_TieEven ⟨false, false⟩) =
      decide (residualError false 5 61 0 ≠ ResidualError.Zero) ∧
    (FPType.QNaN = FPType.SNaN ∨ FPType.QNaN = FPType.QNaN →
      raisesInvalidOp (FPToFixed 32 FPType.QNaN false 5 61 0 false ⟨⟩
        RoundingMode.ToNearest_TieEven ⟨false, false⟩) = true) :=
  claim_C6_inexact_iff 32 FPType.QNaN false 5 61 0 false ⟨⟩
    RoundingMode.ToNearest_TieEven ⟨false, false⟩ (by decide) (by decide)
    (by decide) (by decide) (by decide) (by decide) (Or.inl (by decide))

/-- `Ones n` is below `2 ^ m` whenever `n ≤ m`. -/
theorem Ones_lt_two_pow (n m : Nat) (h : n ≤ m) : Common.Ones n < 2 ^ m := by
  have h1 : 0 < 2 ^ n := Nat.pow_pos (by norm_num)
  have h2 : 2 ^ n ≤ 2 ^ m := Nat.pow_le_pow_right (by norm_num) h
  simp only [Common.Ones]
  omega

/-- Every outcome of the overflow detection and tail of the routine is
below `2 ^ ibits`. -/
theorem FPToFixedOverflow_fst_lt (ibits : Nat) (sign : Bool) (mantissa : Nat)
    (unsigned_ : Bool) (fpcr : FPCR) (e : Int) (error : ResidualError)
    (fpsr : FPSR) (ru : Bool) (ir : Nat) (hi1 : 1 ≤ ibits) :
    (FPToFixedOverflow ibits sign mantissa unsigned_ fpcr e error fpsr ru ir).1 <
      2 ^ ibits := by
  have hfin : ∀ x s, (FPToFixedFinish ibits fpcr error x s).1 < 2 ^ ibits := by
    intro x s
    rw [FPToFixedFinish_fst]
    exact Nat.and_lt_two_pow x (Ones_lt_two_pow ibits ibits le_rfl)
  simp only [FPToFixedOverflow]
  split_ifs
  all_goals
    first
      | exact Ones_lt_two_pow _ _ (Nat.sub_le _ _)
      | exact Nat.pow_lt_pow_right (by norm_num) (by omega)
      | exact hfin _ _

/-- The rounding step and everything after it also stay below
`2 ^ ibits`. -/
theorem FPToFixedAfterRound_fst_lt (ibits : Nat) (sign : Bool) (mantissa : Nat)
    (unsigned_ : Bool) (fpcr : FPCR) (e : Int) (error : ResidualError)
    (ir : Nat) (fpsr : FPSR) (ru : Bool) (hi1 : 1 ≤ ibits) :
    (FPToFixedAfterRound ibits sign mantissa unsigned_ fpcr e error ir fpsr
        ru).1 < 2 ^ ibits :=
  FPToFixedOverflow_fst_lt ibits sign mantissa unsigned_ fpcr e error fpsr ru
    (if ru then (ir + 1) % U64_LIMIT else ir) hi1

/-- C7: on every return path — zero short circuit, negative-to-unsigned
return, positive saturation, negative saturation, and the final masked
return — the 64-bit value returned by the conversion has every bit at
position `ibits` and above equal to zero. -/
theorem claim_C7_masking (ibits : Nat) (type : FPType) (sign : Bool)
    (mantissa : Nat) (exponent : Int) (fbits : Nat) (unsigned_ : Bool)
    (fpcr : FPCR) (rounding : RoundingMode) (fpsr : FPSR) (hi1 : 1 ≤ ibits)
    (_hi : ibits ≤ 64) (_hf : fbits ≤ ibits)
    (_hr : rounding ≠ RoundingMode.ToOdd) :
    ∀ v, retVal (FPToFixed ibits type sign mantissa exponent fbits unsigned_
        fpcr rounding fpsr) = some v →
      ∀ k, ibits ≤ k → Nat.testBit v k = false := by
  intro v hv k hk
  have hpos : 0 < 2 ^ ibits := Nat.pow_pos (by norm_num)
  have hlt : v < 2 ^ ibits := by
    simp only [FPToFixed, FPToFixedBody, retVal] at hv
    split at hv
    · simp at hv
    · split at hv
      · simp at hv
        omega
      · split at hv
        · simp at hv
          omega
        · rcases hd : RoundUpDecision rounding
              (residualError sign mantissa exponent fbits)
              (candidate sign mantissa exponent fbits) with _ | ru
          · rw [hd] at hv
            simp at hv
          · rw [hd] at hv
            simp only [Option.map_some'] at hv
            have hv' : (FPToFixedAfterRound ibits sign mantissa unsigned_ fpcr
                (scaledExponent exponent fbits)
                (residualError sign mantissa exponent fbits)
                (candidate sign mantissa exponent fbits)
                (nanFpsr type fpcr fpsr) ru).1 = v := by
              simpa using hv
            rw [← hv']
            exact FPToFixedAfterRound_fst_lt _ _ _ _ _ _ _ _ _ _ hi1
  exact Nat.testBit_eq_false_of_lt
    (lt_of_lt_of_le hlt (Nat.pow_le_pow_right (by norm_num) hk))

/-- Closed instance of the C7 theorem at a saturating unsigned call. -/
theorem claim_C7_witness :
    retVal (FPToFixed 8 FPType.Normal false 1 70 0 true ⟨⟩
        RoundingMode.TowardsPlusInfinity ⟨false, false⟩) = some 255 ∧
    Nat.testBit 255 40 = false :=
  ⟨by decide,
    claim_C7_masking 8 FPType.Normal false 1 70 0 true ⟨⟩
      RoundingMode.TowardsPlusInfinity ⟨false, false⟩ (by decide) (by decide)
      (by decide) (by decide) 255 (by decide) 40 (by decide)⟩

end Dynarmic
